import Mathlib

/-!
Verification development for the small-herd grazing planner
(`src/App.jsx`).  The source is a React single-file app; the parts with
algorithmic content are shallowly embedded here:

* `toNum`, `computeProposedADA` — the stocking-density formula.  JS
  numbers are idealised as rationals (`ℚ`); the values that can reach
  `toNum` in the app (finite numbers, `NaN`/non-finite, `null`,
  `undefined`, the empty string) are modelled by the inductive `JNum`.
  `Number.prototype.toFixed(2)` followed by unary `+` is modelled as
  round-half-up to two decimals over `ℚ` (`round2`), and the float
  literal `0.000001` as the rational `1/1000000`.
* the date layer — `parseISO`/`format(_, "yyyy-MM-dd")`/`addDays` from
  date-fns are modelled over a `Date` (year/month/day) record with the
  standard civil-calendar day-number conversion (`toDays`/`fromDays`).
  The parser accepts the canonical date-only ISO form `yyyy-MM-dd`
  (fixed-width digit groups, calendar-valid), which is the form the app
  itself produces and stores; invalid input yields `none`, and the
  string-level functions propagate the `""` sentinel exactly as the
  source does.
* `recompute` — the schedule-derivation engine (lines 547–560).
* `overlapsSummerWindow` — the Jul-15..Sep-15 recurring window test
  (lines 52–65); `areIntervalsOverlapping` with `inclusive: true` is
  modelled as the inclusive-endpoint timestamp comparison on day
  numbers (all dates sit at midnight in the source, so timestamp order
  is day-number order).
* the `StaticMap` scene — feature selection, route anchors and
  numbered segments (lines 246–367).  Geometry is abstracted: each
  feature carries its projected representative point (the result of
  `turf.centerOfMass` + the Mercator fit, which is transcendental
  numerics none of the claims quantify), and segments carry their
  endpoint coordinates, sequence number being the verified content.
-/

/-! ### JS numeric values and the stocking-density formula -/

/-- The values that can reach `toNum` in the app: a finite number, a
non-finite number (`NaN` or `±Infinity`, which `Number.isFinite`
rejects), `null`, `undefined`, or the empty string. -/
inductive JNum where
  | num (x : ℚ)
  | nan
  | strEmpty
  | jnull
  | jundef
deriving DecidableEq

/-- Embeds `toNum` (App.jsx:27–31): `null`/`undefined`/`""` give 0,
otherwise `Number(v)` kept only when finite, else 0. -/
def toNum : JNum → ℚ
  | .jnull => 0
  | .jundef => 0
  | .strEmpty => 0
  | .num x => x
  | .nan => 0

/-- `+(x.toFixed(2))`: round half-up to two decimal places, over `ℚ`. -/
def round2 (x : ℚ) : ℚ := ((Rat.floor (x * 100 + 1/2) : ℚ)) / 100

/-- Embeds `computeProposedADA` (App.jsx:33–38): clamp days and herd to
`≥ 0`, clamp area to the strictly positive floor `0.000001`, divide,
round to 2 decimals. -/
def computeProposedADA (grazingDays herdSize acreage : JNum) : ℚ :=
  let g := max 0 (toNum grazingDays)
  let h := max 0 (toNum herdSize)
  let a := max (1/1000000) (toNum acreage)
  round2 (g * h / a)

/-- Spec-side formula (§8 of the spec, quoted by claim C2):
`round((d*h)/a, 2)` with no clamping of the area. -/
def specStockingDensity (d h a : ℚ) : ℚ := round2 (d * h / a)

/-! ### Calendar dates -/

/-- A calendar date as year/month/day. -/
structure Date where
  year : Int
  month : Int
  day : Int
deriving DecidableEq

/-- Civil date → days since 1970-01-01 (standard era/year-of-era
day-count algorithm, as used by every proleptic-Gregorian date
library, date-fns included). -/
def toDays (dt : Date) : Int :=
  let y := if dt.month ≤ 2 then dt.year - 1 else dt.year
  let era := Int.ediv y 400
  let yoe := y - era * 400
  let mp := if 2 < dt.month then dt.month - 3 else dt.month + 9
  let doy := Int.ediv (153 * mp + 2) 5 + dt.day - 1
  let doe := yoe * 365 + Int.ediv yoe 4 - Int.ediv yoe 100 + doy
  era * 146097 + doe - 719468

/-- Days since 1970-01-01 → civil date (inverse of `toDays`). -/
def fromDays (z0 : Int) : Date :=
  let z := z0 + 719468
  let era := Int.ediv z 146097
  let doe := z - era * 146097
  let yoe :=
    Int.ediv (doe - Int.ediv doe 1460 + Int.ediv doe 36524 - Int.ediv doe 146096) 365
  let y := yoe + era * 400
  let doy := doe - (365 * yoe + Int.ediv yoe 4 - Int.ediv yoe 100)
  let mp := Int.ediv (5 * doy + 2) 153
  let d := doy - Int.ediv (153 * mp + 2) 5 + 1
  let m := if mp < 10 then mp + 3 else mp - 9
  ⟨if m ≤ 2 then y + 1 else y, m, d⟩

def isLeapYear (y : Nat) : Bool :=
  (y % 4 == 0 && y % 100 != 0) || y % 400 == 0

def daysInMonth (y m : Nat) : Nat :=
  if m = 2 then (if isLeapYear y then 29 else 28)
  else if m = 4 ∨ m = 6 ∨ m = 9 ∨ m = 11 then 30
  else 31

/-! Character-level helpers for the ISO `yyyy-MM-dd` grammar. -/

def digitVal (c : Char) : Option Nat :=
  if '0' ≤ c ∧ c ≤ '9' then some (c.toNat - '0'.toNat) else none

def parseDigitsAux : List Char → Nat → Option Nat
  | [], acc => some acc
  | c :: cs, acc =>
    match digitVal c with
    | some v => parseDigitsAux cs (acc * 10 + v)
    | none => none

def parseDigits (l : List Char) : Option Nat :=
  if l.isEmpty then none else parseDigitsAux l 0

/-- Split a character list on `'-'` (the ISO field separator). -/
def splitDash : List Char → List (List Char)
  | [] => [[]]
  | c :: cs =>
    if c = '-' then [] :: splitDash cs
    else
      match splitDash cs with
      | [] => [[c]]
      | g :: gs => (c :: g) :: gs

def digitChar (n : Nat) : Char := Char.ofNat (48 + n)

def natDigitsAux : Nat → Nat → List Char → List Char
  | 0, _, acc => acc
  | fuel + 1, n, acc =>
    if n = 0 then acc else natDigitsAux fuel (n / 10) (digitChar (n % 10) :: acc)

def natDigits (n : Nat) : List Char :=
  if n = 0 then ['0'] else natDigitsAux 24 n []

def padLeft (w : Nat) (l : List Char) : List Char :=
  List.replicate (w - l.length) '0' ++ l

def intDigits (z : Int) : List Char :=
  if z < 0 then '-' :: natDigits z.natAbs else natDigits z.toNat

/-- Embeds `format(d, "yyyy-MM-dd")`: zero-padded year-month-day. -/
def formatISO (dt : Date) : String :=
  ⟨padLeft 4 (intDigits dt.year) ++ ('-' :: padLeft 2 (intDigits dt.month))
    ++ ('-' :: padLeft 2 (intDigits dt.day))⟩

/-- The raw `yyyy-MM-dd` grammar: three dash-separated digit groups of
widths 4/2/2, month 1..12, day within the month's length. -/
def rawParseISO (s : String) : Option Date :=
  match splitDash s.data with
  | [ys, ms, ds] =>
    if ys.length = 4 ∧ ms.length = 2 ∧ ds.length = 2 then
      match parseDigits ys, parseDigits ms, parseDigits ds with
      | some y, some m, some d =>
        if 1 ≤ m ∧ m ≤ 12 ∧ 1 ≤ d ∧ d ≤ daysInMonth y m then
          some ⟨(y : Int), (m : Int), (d : Int)⟩
        else none
      | _, _, _ => none
    else none
  | _ => none

/-- Embeds `parseISO` restricted to the date-only canonical form the
app produces and stores.  The final guard re-checks that formatting
reproduces the input; on the accepted grammar (fixed-width digit
groups) it never rejects anything, and it makes
`format ∘ parse = id` structural. -/
def parseISODate (s : String) : Option Date :=
  match rawParseISO s with
  | some d => if formatISO d = s then some d else none
  | none => none

/-- Embeds `toISO` (App.jsx:40–44): empty in → empty out, else parse
and re-format, invalid → `""`. -/
def toISO (s : String) : String :=
  if s = "" then ""
  else
    match parseISODate s with
    | some d => formatISO d
    | none => ""

/-- date-fns `toInteger`: truncate toward zero. -/
def jsTrunc (q : ℚ) : Int := Int.tdiv q.num (q.den : Int)

/-- Embeds `addDaysISO` (App.jsx:46–50): parse, `""` when invalid,
else add (truncated) days and format. -/
def addDaysISO (iso : String) (days : ℚ) : String :=
  match parseISODate iso with
  | none => ""
  | some d => formatISO (fromDays (toDays d + jsTrunc days))

/-! Quick sanity checks of the date layer. -/

example : parseISODate "2025-03-01" = some ⟨2025, 3, 1⟩ := by decide
example : parseISODate "" = none := by decide
example : parseISODate "2025-02-30" = none := by decide
example : toISO "2025-03-01" = "2025-03-01" := by decide
example : addDaysISO "2025-03-01" 9 = "2025-03-10" := by decide
example : addDaysISO "2025-03-11" 1 = "2025-03-12" := by decide
example : addDaysISO "2024-02-28" 1 = "2024-02-29" := by decide
example : addDaysISO "" 1 = "" := rfl

/-! ### The summer-window overlap test -/

/-- date-fns `areIntervalsOverlapping` with `inclusive: true`:
`leftStart ≤ rightEnd ∧ rightStart ≤ leftEnd` on timestamps. -/
def areIntervalsOverlappingIncl (ls le rs re : Int) : Bool :=
  decide (ls ≤ re) && decide (rs ≤ le)

/-- Embeds `overlapsSummerWindow` (App.jsx:52–65): both endpoints must
parse, then loop year-by-year from `start.year` to `end.year` testing
inclusive overlap against that year's Jul-15..Sep-15 window. -/
def overlapsSummerWindow (startISO endISO : String) : Bool :=
  match parseISODate startISO, parseISODate endISO with
  | some s, some e =>
    (List.range ((e.year - s.year + 1).toNat)).any fun k =>
      let y := s.year + (k : Int)
      areIntervalsOverlappingIncl (toDays s) (toDays e)
        (toDays ⟨y, 7, 15⟩) (toDays ⟨y, 9, 15⟩)
  | _, _ => false

example : overlapsSummerWindow "2025-07-01" "2025-07-20" = true := by decide
example : overlapsSummerWindow "2025-01-01" "2025-02-01" = false := by decide
example : overlapsSummerWindow "2024-12-01" "2025-08-01" = true := by decide

/-! ### Entries and the schedule engine -/

/-- One row of the plan table (`newRow`, App.jsx:67–82).  Numeric cells
are `JNum` (they arrive from local storage / CSV and may be null or
garbage); `proposedADA` is the derived rational; dates are the ISO
strings the source keeps, `""` being the no-date sentinel. -/
structure Entry where
  id : String
  pasture : String
  acreage : JNum
  herdSize : JNum
  prevPlannedADA : JNum
  prevActualADA : JNum
  estNativeADA : JNum
  estPerennialADA : JNum
  grazingDays : JNum
  proposedADA : ℚ
  startDate : String
  endDate : String
  notes : String
deriving DecidableEq

/-- First pass of `recompute` (App.jsx:549): set every row's
`proposedADA` from its own days/herd/area. -/
def setADA (r : Entry) : Entry :=
  { r with proposedADA := computeProposedADA r.grazingDays r.herdSize r.acreage }

/-- Second pass of `recompute` (App.jsx:550–558): walk the rows with a
cursor date; an empty cursor propagates empty dates; otherwise
`startDate := cursor`, `endDate := cursor + (days-1)` (or the cursor
itself when `days = 0`), and the cursor advances to `endDate + 1`. -/
def setDates : String → List Entry → List Entry
  | _, [] => []
  | cur, r :: rest =>
    if cur = "" then
      { r with startDate := "", endDate := "" } :: setDates "" rest
    else
      let days : ℚ := max 0 (toNum r.grazingDays)
      let ed : String := if 0 < days then addDaysISO cur (days - 1) else cur
      { r with startDate := cur, endDate := ed } :: setDates (addDaysISO ed 1) rest

/-- Embeds `recompute` (App.jsx:547–560) — the spec's
`deriveSchedule`. -/
def recompute (list : List Entry) (planStart : String) : List Entry :=
  setDates (toISO planStart) (list.map setADA)

/-- A concrete entry for examples and witnesses. -/
def mkEntry (p : String) (ac hs gd : ℚ) : Entry :=
  { id := p, pasture := p, acreage := .num ac, herdSize := .num hs,
    prevPlannedADA := .jnull, prevActualADA := .jnull,
    estNativeADA := .jnull, estPerennialADA := .jnull,
    grazingDays := .num gd, proposedADA := 0,
    startDate := "", endDate := "", notes := "" }

/-- The spec's worked example: three entries with durations 10, 0, 5. -/
def ex3 : List Entry :=
  [mkEntry "A" 100 110 10, mkEntry "B" 100 110 0, mkEntry "C" 100 110 5]

set_option maxRecDepth 10000 in
example :
    (recompute ex3 "2025-03-01").map (fun r => (r.startDate, r.endDate))
      = [("2025-03-01", "2025-03-10"), ("2025-03-11", "2025-03-11"),
         ("2025-03-12", "2025-03-16")] := by with_unfolding_all decide

/-! ### The static-map scene (feature selection, route, segments) -/

/-- ASCII case-folding, modelling `String.prototype.toLowerCase` on
the pasture names the app uses. -/
def lowerChar (c : Char) : Char :=
  if 'A' ≤ c ∧ c ≤ 'Z' then Char.ofNat (c.toNat + 32) else c

def lowerStr (s : String) : String := ⟨s.data.map lowerChar⟩

/-- A loaded GeoJSON feature, abstracted to its join name and the
projected representative point (`turf.centerOfMass` composed with the
Mercator fit of §4.3 — transcendental numerics the claims do not
quantify over, so the composite is carried as data). -/
structure Feature where
  name : String
  anchorX : ℚ
  anchorY : ℚ
deriving DecidableEq

/-- `featureByPasture`: the JS dictionary keyed by normalized name,
modelled as an association list (first match wins). -/
def FeatureMap := List (String × Feature)

/-- `featureByPasture[key]`. -/
def lookupFeature (m : FeatureMap) (k : String) : Option Feature :=
  (List.find? (fun p => p.1 = k) m).map Prod.snd

/-- A route label anchor (`routeAnchors` elements, App.jsx:320–327). -/
structure Anchor where
  name : String
  x : ℚ
  y : ℚ
deriving DecidableEq

/-- One arrow segment (App.jsx:352–367), abstracted to its sequence
number and the two anchor endpoints (the pixel offset toward the
second anchor and the midpoint label position are derived from these
by fixed arithmetic the claims do not quantify over). -/
structure Segment where
  num : Nat
  x1 : ℚ
  y1 : ℚ
  x2 : ℚ
  y2 : ℚ
deriving DecidableEq

/-- `rows.filter(r => (Number(r?.grazingDays) || 0) > 0)`
(App.jsx:318).  On the modelled value domain `Number(v) || 0`
coincides with `toNum`. -/
def activeRows (rows : List Entry) : List Entry :=
  rows.filter fun r => 0 < toNum r.grazingDays

/-- `picked` (App.jsx:247): each row's feature by normalized name,
dropping misses. -/
def pickedFeatures (rows : List Entry) (fbp : FeatureMap) : List Feature :=
  rows.filterMap fun r => lookupFeature fbp (lowerStr r.pasture)

/-- `routeAnchors` (App.jsx:320–327): one anchor per duration>0 row
whose name resolves to a feature (`.map(...).filter(Boolean)` =
`filterMap`). -/
def routeAnchorsOf (rows : List Entry) (fbp : FeatureMap) : List Anchor :=
  (activeRows rows).filterMap fun r =>
    (lookupFeature fbp (lowerStr r.pasture)).map fun f =>
      ⟨r.pasture, f.anchorX, f.anchorY⟩

/-- The segment loop (App.jsx:352–367): `for i in [0, n-2]`, segment
`i` joins anchors `i` and `i+1` and carries number `i+1`. -/
def mkSegments : Nat → List Anchor → List Segment
  | _, [] => []
  | _, [_] => []
  | i, a :: b :: rest =>
    ⟨i + 1, a.x, a.y, b.x, b.y⟩ :: mkSegments (i + 1) (b :: rest)

/-- The renderer's pure output for the claims: the drawn feature set,
the route label anchors, and the numbered segments. -/
structure Scene where
  features : List Feature
  routeAnchors : List Anchor
  segments : List Segment
deriving DecidableEq

/-- `buildScene` (spec §4.4) — the `StaticMap` scene construction:
`features = picked.length ? picked : allFeatures` (App.jsx:246–249),
anchors, and segments. -/
def buildScene (rows : List Entry) (fbp : FeatureMap) (allFeatures : List Feature) :
    Scene :=
  { features :=
      if (pickedFeatures rows fbp).isEmpty then allFeatures
      else pickedFeatures rows fbp
    routeAnchors := routeAnchorsOf rows fbp
    segments := mkSegments 0 (routeAnchorsOf rows fbp) }

/-- Concrete features for examples and witnesses. -/
def fA : Feature := ⟨"a", 1, 2⟩
def fB : Feature := ⟨"b", 3, 4⟩
def fC : Feature := ⟨"c", 5, 6⟩
def exFbp : FeatureMap := [("a", fA), ("b", fB), ("c", fC)]

example :
    routeAnchorsOf [mkEntry "A" 1 1 3, mkEntry "B" 1 1 0, mkEntry "C" 1 1 2] exFbp
      = [⟨"A", 1, 2⟩, ⟨"C", 5, 6⟩] := by with_unfolding_all decide

example :
    mkSegments 0 [⟨"A", 1, 2⟩, ⟨"B", 3, 4⟩, ⟨"C", 5, 6⟩]
      = [⟨1, 1, 2, 3, 4⟩, ⟨2, 3, 4, 5, 6⟩] := by with_unfolding_all decide

/-! ### Helper lemmas about the schedule engine -/

theorem setADA_idem (r : Entry) : setADA (setADA r) = setADA r := rfl

theorem map_setADA_idem (l : List Entry) : (l.map setADA).map setADA = l.map setADA := by
  induction l with
  | nil => rfl
  | cons r t ih => simp [setADA_idem, ih]

theorem setDates_length : ∀ (c : String) (l : List Entry),
    (setDates c l).length = l.length
  | _, [] => rfl
  | c, r :: t => by
    by_cases hc : c = "" <;>
      simp [setDates, hc, setDates_length _ t]

theorem addDaysISO_empty (q : ℚ) : addDaysISO "" q = "" := rfl

/-- Fields other than the derived triple, pairwise equal. -/
def framePreserved (a b : Entry) : Prop :=
  a.id = b.id ∧ a.pasture = b.pasture ∧ a.acreage = b.acreage ∧
    a.herdSize = b.herdSize ∧ a.grazingDays = b.grazingDays ∧
    a.notes = b.notes ∧ a.prevPlannedADA = b.prevPlannedADA ∧
    a.prevActualADA = b.prevActualADA ∧ a.estNativeADA = b.estNativeADA ∧
    a.estPerennialADA = b.estPerennialADA

theorem setDates_frame : ∀ (c : String) (l : List Entry),
    List.Forall₂ framePreserved l (setDates c (l.map setADA))
  | _, [] => List.Forall₂.nil
  | c, r :: t => by
    by_cases hc : c = ""
    · subst hc
      simp only [List.map_cons, setDates, if_pos rfl]
      exact List.Forall₂.cons
        ⟨rfl, rfl, rfl, rfl, rfl, rfl, rfl, rfl, rfl, rfl⟩ (setDates_frame _ t)
    · simp only [List.map_cons, setDates, if_neg hc]
      exact List.Forall₂.cons
        ⟨rfl, rfl, rfl, rfl, rfl, rfl, rfl, rfl, rfl, rfl⟩ (setDates_frame _ t)

theorem setDates_map_setADA : ∀ (c : String) (l : List Entry),
    (setDates c l).map setADA = setDates c (l.map setADA)
  | _, [] => rfl
  | c, r :: t => by
    by_cases hc : c = ""
    · subst hc
      simp only [List.map_cons, setDates, if_pos rfl]
      exact congrArg₂ List.cons rfl (setDates_map_setADA _ t)
    · simp only [List.map_cons, setDates, if_neg hc]
      exact congrArg₂ List.cons rfl (setDates_map_setADA _ t)

theorem setDates_setDates : ∀ (c : String) (l : List Entry),
    setDates c (setDates c l) = setDates c l
  | _, [] => rfl
  | c, r :: t => by
    by_cases hc : c = "" <;>
      simp [setDates, hc, setDates_setDates _ t]

/-! ### Claims C10, C3, C7, C4 -/

/-- **C10.** `deriveSchedule` keeps length and order, and every field
other than the derived triple (`proposedADA`, `startDate`, `endDate`)
— id, pasture, acreage, herdSize, grazingDays, notes, and the four
carried-over metrics — is unchanged on each entry. -/
theorem c10_recompute_frame (l : List Entry) (s : String) :
    (recompute l s).length = l.length ∧
      List.Forall₂ framePreserved l (recompute l s) :=
  ⟨(setDates_frame (toISO s) l).length_eq.symm, setDates_frame (toISO s) l⟩

/-- **C3.** Schedule derivation is idempotent and depends only on its
explicit arguments: `deriveSchedule (deriveSchedule entries start) start
= deriveSchedule entries start`. -/
theorem c3_recompute_idempotent (l : List Entry) (s : String) :
    recompute (recompute l s) s = recompute l s := by
  show setDates (toISO s) ((setDates (toISO s) (l.map setADA)).map setADA)
      = setDates (toISO s) (l.map setADA)
  rw [setDates_map_setADA, map_setADA_idem, setDates_setDates]

/-- The derivation-relevant inputs of an entry, pairwise equal. -/
def scheduleInputsEq (a b : Entry) : Prop :=
  a.acreage = b.acreage ∧ a.herdSize = b.herdSize ∧ a.grazingDays = b.grazingDays

/-- The derived fields of an entry, pairwise equal. -/
def derivedEq (a b : Entry) : Prop :=
  a.proposedADA = b.proposedADA ∧ a.startDate = b.startDate ∧ a.endDate = b.endDate

/-- Derivation-relevant inputs plus the already-set density. -/
def inputsADAEq (a b : Entry) : Prop :=
  scheduleInputsEq a b ∧ a.proposedADA = b.proposedADA

theorem map_setADA_congr : ∀ {l₁ l₂ : List Entry},
    List.Forall₂ scheduleInputsEq l₁ l₂ →
    List.Forall₂ inputsADAEq (l₁.map setADA) (l₂.map setADA)
  | _, _, List.Forall₂.nil => List.Forall₂.nil
  | _, _, List.Forall₂.cons (a := a) (b := b) hab htl => by
    obtain ⟨h1, h2, h3⟩ := hab
    refine List.Forall₂.cons ⟨⟨h1, h2, h3⟩, ?_⟩ (map_setADA_congr htl)
    show computeProposedADA a.grazingDays a.herdSize a.acreage
        = computeProposedADA b.grazingDays b.herdSize b.acreage
    rw [h1, h2, h3]

theorem setDates_congr : ∀ (c : String) {l₁ l₂ : List Entry},
    List.Forall₂ inputsADAEq l₁ l₂ →
    List.Forall₂ derivedEq (setDates c l₁) (setDates c l₂)
  | _, _, _, List.Forall₂.nil => List.Forall₂.nil
  | c, _, _, List.Forall₂.cons (a := a) (b := b) hab htl => by
    obtain ⟨⟨h1, h2, h3⟩, hada⟩ := hab
    by_cases hc : c = ""
    · simp only [setDates, if_pos hc]
      exact List.Forall₂.cons ⟨hada, rfl, rfl⟩ (setDates_congr _ htl)
    · simp only [setDates, if_neg hc]
      rw [h3]
      exact List.Forall₂.cons ⟨hada, rfl, rfl⟩ (setDates_congr _ htl)

/-- **C7.** The derived fields are a function of only sequence order,
season start, and each entry's area/herd/duration: two entry lists
agreeing pairwise on those three fields (notes, labels, ids free) get
pairwise identical derived fields from the same season start. -/
theorem c7_derived_noninterference (s : String) {l₁ l₂ : List Entry}
    (h : List.Forall₂ scheduleInputsEq l₁ l₂) :
    List.Forall₂ derivedEq (recompute l₁ s) (recompute l₂ s) :=
  setDates_congr (toISO s) (map_setADA_congr h)

/-- Witness for C7 at two singleton lists that differ in pasture
label, id and notes but agree on area/herd/duration. -/
theorem c7_derived_noninterference_witness :
    List.Forall₂ derivedEq
      (recompute [mkEntry "X" 100 110 10] "2025-03-01")
      (recompute [{mkEntry "Y" 100 110 10 with notes := "other"}] "2025-03-01") :=
  c7_derived_noninterference "2025-03-01"
    (List.Forall₂.cons ⟨rfl, rfl, rfl⟩ List.Forall₂.nil)

theorem setDates_empty_cursor : ∀ (l : List Entry),
    setDates "" l = l.map fun r => { r with startDate := "", endDate := "" }
  | [] => rfl
  | r :: t => by
    simp only [setDates, if_pos rfl, List.map_cons]
    exact congrArg₂ List.cons rfl (setDates_empty_cursor t)

/-- **C4.** An empty or unparseable season start propagates the empty
date sentinel to every entry, never failing, and the proposed density
is still computed for each entry from its own fields. -/
theorem c4_invalid_start_degrades (l : List Entry) (s : String)
    (hs : s = "" ∨ parseISODate s = none) :
    ∀ r ∈ recompute l s, r.startDate = "" ∧ r.endDate = "" ∧
      r.proposedADA = computeProposedADA r.grazingDays r.herdSize r.acreage := by
  have htoISO : toISO s = "" := by
    rcases hs with hs | hs
    · subst hs; rfl
    · by_cases he : s = ""
      · subst he; rfl
      · simp [toISO, he, hs]
  intro r hr
  rw [show recompute l s = setDates (toISO s) (l.map setADA) from rfl, htoISO,
    setDates_empty_cursor, List.map_map] at hr
  obtain ⟨a, _, rfl⟩ := List.mem_map.mp hr
  exact ⟨rfl, rfl, rfl⟩

/-- Witness for C4: an unparseable season start, checked on the first
produced row. -/
theorem c4_invalid_start_degrades_witness :
    ({ mkEntry "A" 100 110 10 with proposedADA := 11 } : Entry).startDate = ""
      ∧ ({ mkEntry "A" 100 110 10 with proposedADA := 11 } : Entry).endDate = ""
      ∧ ({ mkEntry "A" 100 110 10 with proposedADA := 11 } : Entry).proposedADA
          = computeProposedADA ({ mkEntry "A" 100 110 10 with proposedADA := 11 } : Entry).grazingDays
              ({ mkEntry "A" 100 110 10 with proposedADA := 11 } : Entry).herdSize
              ({ mkEntry "A" 100 110 10 with proposedADA := 11 } : Entry).acreage :=
  c4_invalid_start_degrades ex3 "not-a-date" (Or.inr (by with_unfolding_all decide))
    { mkEntry "A" 100 110 10 with proposedADA := 11 } (by with_unfolding_all decide)

/-! ### Claim C1: sequential windows -/

theorem parseISODate_format {s : String} {d : Date}
    (h : parseISODate s = some d) : formatISO d = s := by
  unfold parseISODate at h
  split at h
  · split at h
    · cases h; assumption
    · exact absurd h (by simp)
  · exact absurd h (by simp)

theorem parseISODate_empty_eq : parseISODate "" = none := by
  with_unfolding_all rfl

theorem parseISODate_ne_empty {s : String} {d : Date}
    (h : parseISODate s = some d) : s ≠ "" := by
  intro he
  rw [he, parseISODate_empty_eq] at h
  exact Option.noConfusion h

theorem toISO_of_parse {s : String} {d : Date}
    (h : parseISODate s = some d) : toISO s = s := by
  unfold toISO
  rw [if_neg (parseISODate_ne_empty h), h]
  exact parseISODate_format h

/-- Default entry for index lookups. -/
def dummyEntry : Entry := mkEntry "" 0 0 0

theorem setDates_head_startDate (c : String) (r : Entry) (t : List Entry) :
    ((setDates c (r :: t)).getD 0 dummyEntry).startDate = c := by
  by_cases hc : c = ""
  · subst hc; simp [setDates]
  · simp [setDates, hc]

/-- The `endDate` the cursor loop writes for one entry. -/
def cursorEnd (c : String) (r : Entry) : String :=
  if 0 < max 0 (toNum r.grazingDays)
    then addDaysISO c (max 0 (toNum r.grazingDays) - 1) else c

theorem setDates_cons_ne (c : String) (hc : ¬c = "") (r : Entry) (t : List Entry) :
    setDates c (r :: t)
      = { r with startDate := c, endDate := cursorEnd c r }
          :: setDates (addDaysISO (cursorEnd c r) 1) t := by
  simp only [setDates, if_neg hc, cursorEnd]

theorem setDates_cons_empty (r : Entry) (t : List Entry) :
    setDates "" (r :: t)
      = { r with startDate := "", endDate := "" } :: setDates "" t := by
  simp [setDates]

theorem setDates_chain : ∀ (l : List Entry) (c : String) (i : Nat),
    i + 1 < (setDates c l).length →
    ((setDates c l).getD (i + 1) dummyEntry).startDate
      = addDaysISO (((setDates c l).getD i dummyEntry)).endDate 1
  | [], c, i, h => by simp [setDates] at h
  | r :: t, c, i, h => by
    by_cases hc : c = ""
    · subst hc
      rw [setDates_cons_empty r t]
      rw [setDates_cons_empty r t] at h
      cases i with
      | zero =>
        cases t with
        | nil => simp [setDates] at h
        | cons r2 t2 =>
          simp only [List.getD_cons_succ, List.getD_cons_zero]
          rw [setDates_head_startDate "" r2 t2]
          rfl
      | succ j =>
        simp only [List.getD_cons_succ]
        exact setDates_chain t "" j (by
          simp only [List.length_cons] at h
          omega)
    · rw [setDates_cons_ne c hc r t]
      rw [setDates_cons_ne c hc r t] at h
      cases i with
      | zero =>
        cases t with
        | nil => simp [setDates] at h
        | cons r2 t2 =>
          simp only [List.getD_cons_succ, List.getD_cons_zero]
          rw [setDates_head_startDate _ r2 t2]
      | succ j =>
        simp only [List.getD_cons_succ]
        exact setDates_chain t _ j (by
          simp only [List.length_cons] at h
          omega)

theorem setDates_endDate : ∀ (l : List Entry) (c : String) (i : Nat),
    i < (setDates c l).length →
    ((0:ℚ) < max 0 (toNum (((setDates c l).getD i dummyEntry)).grazingDays) →
      ((setDates c l).getD i dummyEntry).endDate
        = addDaysISO (((setDates c l).getD i dummyEntry)).startDate
            (max 0 (toNum (((setDates c l).getD i dummyEntry)).grazingDays) - 1))
    ∧ (max 0 (toNum (((setDates c l).getD i dummyEntry)).grazingDays) ≤ 0 →
      ((setDates c l).getD i dummyEntry).endDate
        = ((setDates c l).getD i dummyEntry).startDate)
  | [], c, i, h => by simp [setDates] at h
  | r :: t, c, i, h => by
    by_cases hc : c = ""
    · subst hc
      rw [setDates_cons_empty r t]
      rw [setDates_cons_empty r t] at h
      cases i with
      | zero =>
        exact ⟨fun _ => (addDaysISO_empty _).symm, fun _ => rfl⟩
      | succ j =>
        simp only [List.getD_cons_succ]
        exact setDates_endDate t "" j (by
          simp only [List.length_cons] at h
          omega)
    · rw [setDates_cons_ne c hc r t]
      rw [setDates_cons_ne c hc r t] at h
      cases i with
      | zero =>
        simp only [List.getD_cons_zero]
        refine ⟨fun hd => ?_, fun hd => ?_⟩
        · show cursorEnd c r = addDaysISO c (max 0 (toNum r.grazingDays) - 1)
          unfold cursorEnd
          exact if_pos hd
        · show cursorEnd c r = c
          unfold cursorEnd
          exact if_neg (not_lt.mpr hd)
      | succ j =>
        simp only [List.getD_cons_succ]
        exact setDates_endDate t _ j (by
          simp only [List.length_cons] at h
          omega)

/-- **C1.** With a parseable season start: entry 0 starts at the
season start; each later entry starts one day after its predecessor's
end; an entry with positive duration ends `duration - 1` days after
its own start, and a zero-duration entry ends on its own start date
(one nominal day).  The spec's worked example (start 2025-03-01,
durations [10, 0, 5]) yields the three claimed windows. -/
theorem c1_sequential_windows :
    (∀ (l : List Entry) (s : String) (d : Date), parseISODate s = some d →
      (0 < (recompute l s).length →
          ((recompute l s).getD 0 dummyEntry).startDate = s)
      ∧ (∀ i : Nat, i + 1 < (recompute l s).length →
          ((recompute l s).getD (i + 1) dummyEntry).startDate
            = addDaysISO (((recompute l s).getD i dummyEntry)).endDate 1)
      ∧ (∀ i : Nat, i < (recompute l s).length →
          ((0:ℚ) < max 0 (toNum (((recompute l s).getD i dummyEntry)).grazingDays) →
            ((recompute l s).getD i dummyEntry).endDate
              = addDaysISO (((recompute l s).getD i dummyEntry)).startDate
                  (max 0 (toNum (((recompute l s).getD i dummyEntry)).grazingDays) - 1))
          ∧ (max 0 (toNum (((recompute l s).getD i dummyEntry)).grazingDays) ≤ 0 →
            ((recompute l s).getD i dummyEntry).endDate
              = ((recompute l s).getD i dummyEntry).startDate)))
    ∧ (recompute ex3 "2025-03-01").map (fun r => (r.startDate, r.endDate))
        = [("2025-03-01", "2025-03-10"), ("2025-03-11", "2025-03-11"),
           ("2025-03-12", "2025-03-16")] := by
  refine ⟨fun l s d hp => ⟨?_, ?_, ?_⟩, by with_unfolding_all decide⟩
  · intro h0
    cases l with
    | nil => exact absurd h0 (by simp [recompute, setDates])
    | cons r t =>
      show ((setDates (toISO s) ((r :: t).map setADA)).getD 0 dummyEntry).startDate = s
      rw [toISO_of_parse hp]
      exact setDates_head_startDate s (setADA r) (t.map setADA)
  · intro i h
    exact setDates_chain (l.map setADA) (toISO s) i h
  · intro i h
    exact setDates_endDate (l.map setADA) (toISO s) i h

set_option maxRecDepth 10000 in
/-- Witness for C1 at the worked example's first entry. -/
theorem c1_sequential_windows_witness :
    ((recompute ex3 "2025-03-01").getD 0 dummyEntry).startDate = "2025-03-01" :=
  (c1_sequential_windows.1 ex3 "2025-03-01" ⟨2025, 3, 1⟩
      (by with_unfolding_all decide)).1 (by with_unfolding_all decide)

/-! ### Claim C2: stocking density -/

/-- **C2 counterexample.** The claim asserts
`stockingDensity(d,h,a) = round((d*h)/a, 2)` for every `a > 0`, but the
code clamps the area to the floor `0.000001` first, so the equality
fails for any positive area below the floor: at `d = h = 1`,
`a = 10⁻⁷` the code yields `round2 10⁶ = 1000000` while the claimed
formula yields `10⁷`. -/
theorem c2_stocking_density_counterexample :
    (0:ℚ) ≤ 1 ∧ (0:ℚ) < 1/10000000 ∧
      computeProposedADA (.num 1) (.num 1) (.num (1/10000000))
        ≠ specStockingDensity 1 1 (1/10000000) := by
  with_unfolding_all decide

/-- **C2 amended.** For days ≥ 0, herd ≥ 0 and area at or above the
clamp floor `0.000001`, the density is `round((d*h)/a, 2)`; at area 0
the floor is used instead of dividing by zero (so the result is the
finite `round((d*h)/0.000001, 2)`); and the modelled garbage inputs
(`null`, `undefined`, `""`, non-finite) all collapse to 0. -/
theorem c2_stocking_density_amended :
    (∀ d h a : ℚ, 0 ≤ d → 0 ≤ h → 1/1000000 ≤ a →
      computeProposedADA (.num d) (.num h) (.num a) = specStockingDensity d h a)
    ∧ (∀ d h : ℚ, 0 ≤ d → 0 ≤ h →
      computeProposedADA (.num d) (.num h) (.num 0)
        = specStockingDensity d h (1/1000000))
    ∧ toNum JNum.jnull = 0 ∧ toNum JNum.jundef = 0
    ∧ toNum JNum.strEmpty = 0 ∧ toNum JNum.nan = 0 := by
  refine ⟨?_, ?_, rfl, rfl, rfl, rfl⟩
  · intro d h a hd hh ha
    show round2 (max 0 d * max 0 h / max (1/1000000) a) = round2 (d * h / a)
    rw [max_eq_right hd, max_eq_right hh, max_eq_right ha]
  · intro d h hd hh
    show round2 (max 0 d * max 0 h / max (1/1000000) 0)
        = round2 (d * h / (1/1000000))
    rw [max_eq_right hd, max_eq_right hh,
      max_eq_left (by norm_num : (0:ℚ) ≤ 1/1000000)]

/-- Witness for the amended C2 at days 2, herd 3, area 1. -/
theorem c2_stocking_density_amended_witness :
    computeProposedADA (.num 2) (.num 3) (.num 1) = specStockingDensity 2 3 1 :=
  c2_stocking_density_amended.1 2 3 1 (by norm_num) (by norm_num) (by norm_num)

/-! ### Claim C6: the recurring summer window -/

theorem summer_window_le (y : Int) : toDays ⟨y, 7, 15⟩ ≤ toDays ⟨y, 9, 15⟩ := by
  unfold toDays
  norm_num

/-- **C6.** For parseable endpoints forming a well-formed closed
interval, `overlapsSummerWindow` returns true iff the interval meets
the Jul-15..Sep-15 window of at least one year `y` between the two
endpoint years (intersection expressed as a common day `t`); and the
two quoted examples evaluate as claimed. -/
theorem c6_overlaps_summer_window :
    (∀ (s e : String) (ds de : Date),
      parseISODate s = some ds → parseISODate e = some de →
      toDays ds ≤ toDays de →
      (overlapsSummerWindow s e = true ↔
        ∃ y : Int, ds.year ≤ y ∧ y ≤ de.year ∧
          ∃ t : Int, toDays ds ≤ t ∧ t ≤ toDays de ∧
            toDays ⟨y, 7, 15⟩ ≤ t ∧ t ≤ toDays ⟨y, 9, 15⟩))
    ∧ overlapsSummerWindow "2025-07-01" "2025-07-20" = true
    ∧ overlapsSummerWindow "2025-01-01" "2025-02-01" = false := by
  refine ⟨?_, by with_unfolding_all decide, by with_unfolding_all decide⟩
  intro s e ds de hs he hle
  unfold overlapsSummerWindow
  rw [hs, he]
  simp only [List.any_eq_true, List.mem_range, areIntervalsOverlappingIncl,
    Bool.and_eq_true, decide_eq_true_eq]
  constructor
  · rintro ⟨k, hk, h1, h2⟩
    refine ⟨ds.year + (k : Int), by omega, by omega, ?_⟩
    have hw := summer_window_le (ds.year + (k : Int))
    rcases le_total (toDays ds) (toDays ⟨ds.year + (k : Int), 7, 15⟩) with hmax | hmax
    · exact ⟨toDays ⟨ds.year + (k : Int), 7, 15⟩, hmax, h2, le_refl _, hw⟩
    · exact ⟨toDays ds, le_refl _, hle, hmax, h1⟩
  · rintro ⟨y, hy1, hy2, t, ht1, ht2, ht3, ht4⟩
    refine ⟨(y - ds.year).toNat, by omega, ?_, ?_⟩
    · rw [show ds.year + ((y - ds.year).toNat : Int) = y from by omega]
      exact le_trans ht1 ht4
    · rw [show ds.year + ((y - ds.year).toNat : Int) = y from by omega]
      exact le_trans ht3 ht2

/-! ### Claims C5, C8, C9: the route scene -/

/-- Default segment for index lookups. -/
def dummySegment : Segment := ⟨0, 0, 0, 0, 0⟩

theorem mkSegments_length : ∀ (i : Nat) (l : List Anchor),
    (mkSegments i l).length = l.length - 1
  | _, [] => rfl
  | _, [_] => rfl
  | i, a :: b :: rest => by
    simp only [mkSegments, List.length_cons, mkSegments_length (i + 1) (b :: rest)]
    omega

theorem mkSegments_num : ∀ (l : List Anchor) (i0 j : Nat),
    j < (mkSegments i0 l).length →
    ((mkSegments i0 l).getD j dummySegment).num = i0 + j + 1
  | [], _, _, h => by simp [mkSegments] at h
  | [_], _, _, h => by simp [mkSegments] at h
  | a :: b :: rest, i0, 0, _ => by simp [mkSegments]
  | a :: b :: rest, i0, j + 1, h => by
    simp only [mkSegments, List.getD_cons_succ]
    rw [mkSegments_num (b :: rest) (i0 + 1) j (by
      simp only [mkSegments, List.length_cons] at h
      omega)]
    omega

theorem routeAnchors_names_of_matched (fbp : FeatureMap) : ∀ (l : List Entry),
    (∀ r ∈ l, (lookupFeature fbp (lowerStr r.pasture)).isSome) →
    ((l.filterMap fun r => (lookupFeature fbp (lowerStr r.pasture)).map fun f =>
        (⟨r.pasture, f.anchorX, f.anchorY⟩ : Anchor)).map Anchor.name
      = l.map Entry.pasture)
  | [], _ => rfl
  | a :: t, h => by
    obtain ⟨f, hf⟩ := Option.isSome_iff_exists.mp (h a (List.mem_cons_self a t))
    simp only [List.filterMap_cons, hf, Option.map_some', List.map_cons]
    exact congrArg₂ List.cons rfl
      (routeAnchors_names_of_matched fbp t fun r hr => h r (List.mem_cons_of_mem a hr))

/-- **C5.** When every duration>0 entry (N of them) resolves to a
feature: exactly N route anchors, one per such entry in sequence
order (their labels are the entries' pasture names in order); exactly
N-1 segments (so none when N ≤ 1); and segment j carries sequence
number j+1. -/
theorem c5_route_counts (rows : List Entry) (fbp : FeatureMap) (allF : List Feature)
    (h : ∀ r ∈ activeRows rows, (lookupFeature fbp (lowerStr r.pasture)).isSome) :
    (buildScene rows fbp allF).routeAnchors.length = (activeRows rows).length
    ∧ (buildScene rows fbp allF).routeAnchors.map Anchor.name
        = (activeRows rows).map Entry.pasture
    ∧ (buildScene rows fbp allF).segments.length = (activeRows rows).length - 1
    ∧ ∀ j : Nat, j < (buildScene rows fbp allF).segments.length →
        ((buildScene rows fbp allF).segments.getD j dummySegment).num = j + 1 := by
  have hnames := routeAnchors_names_of_matched fbp (activeRows rows) h
  have hlen : (routeAnchorsOf rows fbp).length = (activeRows rows).length := by
    have hl := congrArg List.length hnames
    rwa [List.length_map, List.length_map] at hl
  refine ⟨hlen, hnames, ?_, ?_⟩
  · show (mkSegments 0 (routeAnchorsOf rows fbp)).length = _
    rw [mkSegments_length, hlen]
  · intro j hj
    have hn := mkSegments_num (routeAnchorsOf rows fbp) 0 j hj
    simpa using hn

/-- Witness for C5: two matched duration>0 entries give one segment. -/
theorem c5_route_counts_witness :
    (buildScene [mkEntry "a" 1 1 3, mkEntry "b" 1 1 2] exFbp []).segments.length
      = (activeRows [mkEntry "a" 1 1 3, mkEntry "b" 1 1 2]).length - 1 :=
  (c5_route_counts [mkEntry "a" 1 1 3, mkEntry "b" 1 1 2] exFbp []
      (by with_unfolding_all decide)).2.2.1

/-- **C8.** If at least one entry's normalized name matches a loaded
feature, the scene draws exactly the matched features (in entry
order); if no entry matches, it falls back to every loaded feature. -/
theorem c8_feature_selection (rows : List Entry) (fbp : FeatureMap) (allF : List Feature) :
    ((∃ r ∈ rows, (lookupFeature fbp (lowerStr r.pasture)).isSome) →
      (buildScene rows fbp allF).features = pickedFeatures rows fbp)
    ∧ ((∀ r ∈ rows, lookupFeature fbp (lowerStr r.pasture) = none) →
      (buildScene rows fbp allF).features = allF) := by
  constructor
  · rintro ⟨r, hr, hsome⟩
    show (if (pickedFeatures rows fbp).isEmpty then allF else pickedFeatures rows fbp)
        = pickedFeatures rows fbp
    rw [if_neg fun hemp => by
      rw [List.isEmpty_iff] at hemp
      unfold pickedFeatures at hemp
      rw [List.filterMap_eq_nil_iff] at hemp
      rw [hemp r hr] at hsome
      exact Bool.noConfusion hsome]
  · intro h
    show (if (pickedFeatures rows fbp).isEmpty then allF else pickedFeatures rows fbp)
        = allF
    rw [show pickedFeatures rows fbp = [] from List.filterMap_eq_nil_iff.mpr h]
    rfl

/-- Witness for C8 at one matching entry. -/
theorem c8_feature_selection_witness :
    (buildScene [mkEntry "a" 1 1 0] exFbp [fC]).features
      = pickedFeatures [mkEntry "a" 1 1 0] exFbp :=
  (c8_feature_selection [mkEntry "a" 1 1 0] exFbp [fC]).1
    ⟨mkEntry "a" 1 1 0, by with_unfolding_all decide, by with_unfolding_all decide⟩

/-- **C9.** A duration>0 entry whose name resolves to no feature is
simply absent from the route: the anchors (and hence the segments) are
exactly those of the same list without it, so every other resolvable
stop keeps its anchor and connecting segments and rendering is never
blocked. -/
theorem c9_missing_stop (rows1 rows2 : List Entry) (r : Entry) (fbp : FeatureMap)
    (allF : List Feature) (hmiss : lookupFeature fbp (lowerStr r.pasture) = none) :
    (buildScene (rows1 ++ r :: rows2) fbp allF).routeAnchors
      = (buildScene (rows1 ++ rows2) fbp allF).routeAnchors
    ∧ (buildScene (rows1 ++ r :: rows2) fbp allF).segments
      = (buildScene (rows1 ++ rows2) fbp allF).segments := by
  have h1 : routeAnchorsOf (rows1 ++ r :: rows2) fbp
      = routeAnchorsOf (rows1 ++ rows2) fbp := by
    unfold routeAnchorsOf activeRows
    by_cases hact : (0:ℚ) < toNum r.grazingDays
    · simp [List.filter_append, List.filter_cons, hact, List.filterMap_append,
        List.filterMap_cons, hmiss]
    · simp [List.filter_append, List.filter_cons, hact, List.filterMap_append]
  exact ⟨h1, congrArg (mkSegments 0) h1⟩

/-- Witness for C9: an unmatched stop between two matched ones
disappears without disturbing the rest. -/
theorem c9_missing_stop_witness :
    (buildScene ([mkEntry "a" 1 1 3] ++ mkEntry "zz" 1 1 2 :: [mkEntry "b" 1 1 4])
        exFbp []).routeAnchors
      = (buildScene ([mkEntry "a" 1 1 3] ++ [mkEntry "b" 1 1 4]) exFbp []).routeAnchors :=
  (c9_missing_stop [mkEntry "a" 1 1 3] [mkEntry "b" 1 1 4] (mkEntry "zz" 1 1 2)
      exFbp [] (by with_unfolding_all decide)).1

set_option maxRecDepth 10000 in
/-- Witness for C6: instantiating the equivalence at the quoted
overlapping pair exhibits a year and a common day. -/
theorem c6_overlaps_summer_window_witness :
    ∃ y : Int, (⟨2025, 7, 1⟩ : Date).year ≤ y ∧ y ≤ (⟨2025, 7, 20⟩ : Date).year ∧
      ∃ t : Int, toDays ⟨2025, 7, 1⟩ ≤ t ∧ t ≤ toDays ⟨2025, 7, 20⟩ ∧
        toDays ⟨y, 7, 15⟩ ≤ t ∧ t ≤ toDays ⟨y, 9, 15⟩ :=
  (c6_overlaps_summer_window.1 "2025-07-01" "2025-07-20" ⟨2025, 7, 1⟩ ⟨2025, 7, 20⟩
      (by with_unfolding_all decide) (by with_unfolding_all decide)
      (by with_unfolding_all decide)).mp (by with_unfolding_all decide)
